import Mathlib

/-!
# Verification of the NTUT electricity bill bot core logic

Shallow embedding of the decision logic of the crawler service:
the balance extractor numeric parsing, the crawl outcome classifier,
the notification routing layer (severity floor, quiet hours window,
balance threshold suppression) and the daily usage aggregator.

Balances and durations are modelled as rationals, severities as natural
numbers, times of day as seconds since midnight.
-/

set_option autoImplicit false

namespace NtutBot

/-! ### Balance extractor numeric parsing

Embeds `NTUTCrawler.extract_balance_number`, which matches the pattern
`\d+\.?\d*` against the balance text and converts the first match with
`float`, returning `0.0` when nothing matches.
-/

/-- Decimal value of a digit character, as in `float` conversion. -/
def digitVal (c : Char) : Nat := c.toNat - 48

/-- Value of a list of decimal digit characters, most significant first. -/
def digitsToNat (ds : List Char) : Nat :=
  ds.foldl (fun acc c => 10 * acc + digitVal c) 0

/-- The `\d+\.?\d*` match starting at the head of `cs` (head must be a
digit): greedy run of digits, then an optional single dot followed by a
greedy (possibly empty) run of digits. -/
def numberToken (cs : List Char) : List Char :=
  let ip := cs.takeWhile Char.isDigit
  let rest := cs.dropWhile Char.isDigit
  match rest with
  | d :: r2 => if d = '.' then ip ++ '.' :: r2.takeWhile Char.isDigit else ip
  | [] => ip

/-- Leftmost match of `\d+\.?\d*` in the text, as `re.findall` followed by
taking the first element; `none` when no digit occurs in the text. -/
def firstNumberToken : List Char → Option (List Char)
  | [] => none
  | c :: cs => if c.isDigit then some (numberToken (c :: cs)) else firstNumberToken cs

/-- `float` applied to a matched token: integer part, and fractional part
scaled by the number of fractional digits. -/
def tokenValue (t : List Char) : ℚ :=
  let ip := t.takeWhile Char.isDigit
  let rest := t.dropWhile Char.isDigit
  match rest with
  | d :: frac =>
    if d = '.' then mkRat (digitsToNat (ip ++ frac)) (10 ^ frac.length)
    else (digitsToNat ip : ℚ)
  | [] => (digitsToNat ip : ℚ)

/-- Embeds `NTUTCrawler.extract_balance_number`: the numeric value of the
first `\d+\.?\d*` match in the balance text, `0.0` when there is none.
Total by construction, mirroring that the Python wraps the conversion in a
`try`/`except` returning `0.0`. -/
def extract_balance_number (s : String) : ℚ :=
  match firstNumberToken s.data with
  | some t => tokenValue t
  | none => 0

example : extract_balance_number "123.45 元" = mkRat 12345 100 := by decide
example : extract_balance_number "abc" = 0 := by decide
example : extract_balance_number "0" = 0 := by decide
example : extract_balance_number "餘額 99.99" = mkRat 9999 100 := by decide

/-! ### Data model

`ElectricityRecord` carries a balance and an optional creation timestamp;
only the hour and minute of the timestamp are observable in the summary
(`strftime("%H:%M")`), so the timestamp is modelled as an hour/minute pair.
-/

/-- Embeds `ElectricityRecord` (models.py): balance plus optional creation
time, reduced to the hour/minute pair the summary formats. -/
structure ElectricityRecord where
  balance : ℚ
  created_at : Option (Nat × Nat)
deriving DecidableEq, Repr

/-- One element of the `hourly_usage` series of the daily summary. -/
structure HourlyEntry where
  time : String
  usage : ℚ
  balance : ℚ
deriving DecidableEq, Repr

/-- Embeds the dict returned by `Database.get_daily_usage_summary`. -/
structure DailySummary where
  date : Option String
  total_usage : ℚ
  start_balance : Option ℚ
  end_balance : Option ℚ
  hourly_usage : List HourlyEntry
deriving DecidableEq, Repr

/-- Python `max(a, b)`: returns `a` when `b <= a`, else `b` (first argument
wins ties). Spelled out with the core decidable order on `ℚ` so that it
evaluates by kernel reduction. -/
def pymax (a b : ℚ) : ℚ := if b ≤ a then a else b

theorem pymax_eq_max (a b : ℚ) : pymax a b = max a b := by
  unfold pymax
  rcases le_total b a with h | h
  · rw [if_pos h, max_eq_left h]
  · rcases eq_or_lt_of_le h with rfl | hlt
    · simp
    · rw [if_neg (not_le.mpr hlt), max_eq_right h]

/-- Two-digit zero-padded rendering of an hour or minute field. -/
def pad2 (n : Nat) : String :=
  if n < 10 then "0" ++ toString n else toString n

/-- `curr_record.created_at.strftime("%H:%M") if curr_record.created_at
else "Unknown"`. -/
def fmtTime : Option (Nat × Nat) → String
  | some (h, m) => pad2 h ++ ":" ++ pad2 m
  | none => "Unknown"

/-! ### Daily usage aggregator

Embeds `Database.get_daily_usage_summary`. The database fetch
(`get_yesterday_records`) is external I/O; the aggregation itself is a pure
function of the time-ordered reading list for the day, taken here as input.
-/

/-- The loop `for i in range(1, len(records))` building the hourly series:
one entry per consecutive pair, usage clamped at zero. -/
def hourlyUsage : List ElectricityRecord → List HourlyEntry
  | a :: b :: rest =>
      ⟨fmtTime b.created_at, pymax 0 (a.balance - b.balance), b.balance⟩
        :: hourlyUsage (b :: rest)
  | _ => []

/-- Embeds `Database.get_daily_usage_summary` applied to the ordered
readings of the target day. -/
def get_daily_usage_summary (target_date : Option String)
    (records : List ElectricityRecord) : DailySummary :=
  if records.length < 2 then
    ⟨target_date, 0, none, none, []⟩
  else
    match records with
    | r0 :: _ :: _ =>
        let start_balance := r0.balance
        let end_balance := (records.getLast?.getD r0).balance
        let total_usage := start_balance - end_balance
        ⟨target_date, pymax 0 total_usage, some start_balance, some end_balance,
          hourlyUsage records⟩
    | _ => ⟨target_date, 0, none, none, []⟩

/-- The clamping example of the specification: readings 500, 480, 520, 460. -/
def demoRecords : List ElectricityRecord :=
  [⟨500, some (0, 0)⟩, ⟨480, some (1, 0)⟩, ⟨520, some (2, 0)⟩, ⟨460, some (3, 0)⟩]

example : (get_daily_usage_summary none demoRecords).total_usage = 40 := by
  norm_num [get_daily_usage_summary, demoRecords, pymax]
example : (get_daily_usage_summary none demoRecords).hourly_usage.map (·.usage)
    = [20, 0, 60] := by
  norm_num [get_daily_usage_summary, demoRecords, hourlyUsage, pymax]
example : get_daily_usage_summary none [⟨500, none⟩]
    = ⟨none, 0, none, none, []⟩ := by
  norm_num [get_daily_usage_summary]

/-! ### Crawl outcome classifier

Embeds `CrawlerService.run_crawl_task`. External effects become input
parameters: `fault` is the message of an unexpected fault raised inside the
`try` body before the crawl steps run (`none` when no fault occurs),
`loginSuccess` is the return value of `crawler.login()`, `balanceText` the
text from `crawler.get_balance()`, `hasDb` whether `set_database` was called
(`hasattr(self, "database")`), `insertOk` the value
`database.insert_electricity_record` would report, and `t0`, `t1` the wall
clock at task start and finish. The `finally` block always overwrites
`duration_seconds` with `t1 - t0`.
-/

/-- Embeds the result dict of `CrawlerService.run_crawl_task`; `records`
keeps the balances of the stored records. -/
structure CrawlResult where
  status : String
  records_count : Nat
  error_message : Option String
  duration_seconds : ℚ
  records : List ℚ
deriving DecidableEq, Repr

/-- Embeds `CrawlerService.run_crawl_task`. -/
def run_crawl_task (fault : Option String) (loginSuccess : Bool)
    (balanceText : String) (hasDb insertOk : Bool) (t0 t1 : ℚ) : CrawlResult :=
  let dur := t1 - t0
  match fault with
  | some msg => ⟨"error", 0, some msg, dur, []⟩
  | none =>
    if loginSuccess = false then
      ⟨"error", 0, some "登入失敗", dur, []⟩
    else
      let balance_number := extract_balance_number balanceText
      if 0 < balance_number ∧ hasDb = true then
        if insertOk = true then
          ⟨"success", 1, none, dur, [balance_number]⟩
        else
          ⟨"partial", 0, some "餘額記錄存入資料庫失敗", dur, []⟩
      else
        ⟨"partial", 0, some "未取得有效餘額或資料庫未設定", dur, []⟩

example : (run_crawl_task none true "123.45" true true 0 2).status = "success" := by
  simp +decide [run_crawl_task, extract_balance_number, firstNumberToken,
    numberToken, tokenValue, digitsToNat, digitVal, List.takeWhile, List.dropWhile]
example : (run_crawl_task none false "x" true true 0 2)
    = ⟨"error", 0, some "登入失敗", 2, []⟩ := by
  norm_num [run_crawl_task]

/-! ### Notification severity levels

Embeds `NotificationLevel` (levels.py), an `IntEnum`; modelled by the
underlying natural numbers so the ordering is the integer ordering.
-/

def DEBUG : Nat := 10
def INFO : Nat := 20
def SUCCESS : Nat := 25
def WARNING : Nat := 30
def ERROR : Nat := 40
def CRITICAL : Nat := 50

/-! ### Quiet hours window

Embeds `NotificationManager._is_within_notification_time` (manager.py).
Times of day are seconds since midnight; the configured strings are parsed
as ISO `HH:MM` or `HH:MM:SS`, and a parse failure of either string raises
`ValueError`, which the method answers with `True` (fail open).
-/

/-- Value of a two-digit field, `none` unless both characters are digits. -/
def twoDigits (c1 c2 : Char) : Option Nat :=
  if c1.isDigit ∧ c2.isDigit then some (10 * digitVal c1 + digitVal c2) else none

/-- Embeds `time.fromisoformat` on the configured strings: accepts
`HH:MM` or `HH:MM:SS` with in-range fields, giving seconds since midnight;
`none` models the `ValueError` raised on malformed input. -/
def parseTime (s : String) : Option Nat :=
  match s.data with
  | [h1, h2, ':', m1, m2] =>
    match twoDigits h1 h2, twoDigits m1 m2 with
    | some hh, some mm =>
      if hh < 24 ∧ mm < 60 then some (3600 * hh + 60 * mm) else none
    | _, _ => none
  | [h1, h2, ':', m1, m2, ':', s1, s2] =>
    match twoDigits h1 h2, twoDigits m1 m2, twoDigits s1 s2 with
    | some hh, some mm, some ss =>
      if hh < 24 ∧ mm < 60 ∧ ss < 60 then some (3600 * hh + 60 * mm + ss) else none
    | _, _, _ => none
  | _ => none

/-- Embeds `NotificationManager._is_within_notification_time`: `now` is the
current local time in seconds since midnight. -/
def isWithinNotificationTime (startS endS : String) (now : Nat) : Bool :=
  match parseTime startS, parseTime endS with
  | some start_time, some end_time =>
    if start_time ≤ end_time then
      decide (start_time ≤ now) && decide (now ≤ end_time)
    else
      decide (now ≥ start_time) || decide (now ≤ end_time)
  | _, _ => true

example : parseTime "23:00" = some 82800 := by decide
example : parseTime "6:00" = none := by decide
example : isWithinNotificationTime "23:00" "06:00" (23 * 3600 + 30 * 60) = true := by decide
example : isWithinNotificationTime "23:00" "06:00" (5 * 3600) = true := by decide
example : isWithinNotificationTime "23:00" "06:00" (12 * 3600) = false := by decide
example : isWithinNotificationTime "25:00" "06:00" (12 * 3600) = true := by decide

/-! ### Per-channel delivery

Embeds `WebhookNotifier.send_notification` (base.py). The outbound HTTP
post is external; `postOk` stands for whether the post would return status
200/204. The pair records whether the delivery attempt proceeded to the
post (`attempted`) and the boolean the method returns (`delivered`).
-/

/-- Embeds the configuration of a `WebhookNotifier`: webhook URL and
minimum severity. -/
structure WebhookNotifier where
  webhook_url : String
  min_level : Nat
deriving DecidableEq, Repr

/-- Outcome of the send attempt as observed by the caller. -/
structure SendResult where
  attempted : Bool
  delivered : Bool
deriving DecidableEq, Repr

/-- Embeds `WebhookNotifier.send_notification`: skip (returning `False`)
when the URL is unset or the severity is below the channel floor, else
proceed with the post. -/
def send_notification (n : WebhookNotifier) (level : Nat) (postOk : Bool) : SendResult :=
  if n.webhook_url = "" then ⟨false, false⟩
  else if level < n.min_level then ⟨false, false⟩
  else ⟨true, postOk⟩

/-! ### Routing to all channels

Embeds `NotificationManager._send_to_all` (manager.py). Each channel call
either returns normally or raises; `SendOutcome` is that behaviour of the
external call, and the loop body catches any raise per channel.
-/

deriving instance DecidableEq for Except

/-- Behaviour of one channel when its send is invoked: either the send
raises, or it runs with the given post outcome. -/
inductive SendOutcome where
  | raises (msg : String)
  | returns (postOk : Bool)
deriving DecidableEq, Repr

/-- The bare `notifier.send_notification(...)` call: `Except.error` models
a raised exception. -/
def rawSend (n : WebhookNotifier) (level : Nat) : SendOutcome → Except String Bool
  | .raises msg => .error msg
  | .returns postOk => .ok (send_notification n level postOk).delivered

/-- One iteration of the `_send_to_all` loop: the `try`/`except` around the
send catches any raise and logs it. -/
def handleOne (n : WebhookNotifier) (level : Nat) (o : SendOutcome) : Bool :=
  match rawSend n level o with
  | .error _ => false
  | .ok b => b

/-- Embeds `NotificationManager._send_to_all` over the channel list (each
paired with the behaviour of its send): an `Except.error` result would mean
an exception escaping the routing call. -/
def send_to_all (level : Nat) :
    List (WebhookNotifier × SendOutcome) → Except String (List Bool)
  | [] => .ok []
  | (n, o) :: rest =>
    let r := handleOne n level o
    (send_to_all level rest).map (fun l => r :: l)

/-! ### Balance success notification

Embeds `NotificationManager.send_balance_notification` (manager.py): quiet
hours gate first, then the low-balance threshold gate, then routing at
severity `SUCCESS`. `none` models the early `return` (the event reaches no
channel at all).
-/

/-- Embeds `NotificationManager.send_balance_notification`. -/
def send_balance_notification (balance_number threshold : ℚ)
    (startS endS : String) (now : Nat)
    (chans : List (WebhookNotifier × SendOutcome)) :
    Option (Except String (List Bool)) :=
  if isWithinNotificationTime startS endS now = false then none
  else if threshold ≤ balance_number then none
  else some (send_to_all SUCCESS chans)

example :
    send_balance_notification 100 100 "06:00" "23:00" (12 * 3600) [] = none := by decide
example :
    send_balance_notification (mkRat 9999 100) 100 "06:00" "23:00" (12 * 3600)
      [(⟨"u", INFO⟩, .returns true)] = some (.ok [true]) := by decide
example :
    send_balance_notification 50 100 "06:00" "23:00" (12 * 3600)
      [(⟨"u", ERROR⟩, .returns true)] = some (.ok [false]) := by decide

/-! ### Supporting lemmas on the numeric parser -/

theorem digitVal_eq_zero_iff {c : Char} (h : c.isDigit = true) :
    digitVal c = 0 ↔ c = '0' := by
  simp only [Char.isDigit] at h
  rw [Bool.and_eq_true, decide_eq_true_eq, decide_eq_true_eq] at h
  obtain ⟨hlo, hhi⟩ := h
  have hlo2 : 48 ≤ c.toNat := hlo
  constructor
  · intro hz
    apply Char.ext
    apply UInt32.ext
    show c.toNat = 48
    unfold digitVal at hz
    omega
  · intro hz
    subst hz
    decide

theorem foldl_digits_eq_zero (ds : List Char) : ∀ acc : Nat,
    (∀ c ∈ ds, c.isDigit = true) →
    (ds.foldl (fun acc c => 10 * acc + digitVal c) acc = 0 ↔
      acc = 0 ∧ ∀ c ∈ ds, c = '0') := by
  induction ds with
  | nil => intro acc _; simp
  | cons c cs ih =>
    intro acc hd
    have hc : c.isDigit = true := hd c (List.mem_cons_self c cs)
    simp only [List.foldl_cons]
    rw [ih (10 * acc + digitVal c) (fun x hx => hd x (List.mem_cons_of_mem c hx))]
    constructor
    · rintro ⟨h1, h2⟩
      have hacc : acc = 0 := by omega
      have hdz : digitVal c = 0 := by omega
      refine ⟨hacc, fun x hx => ?_⟩
      rcases List.mem_cons.mp hx with rfl | hx2
      · exact (digitVal_eq_zero_iff hc).mp hdz
      · exact h2 x hx2
    · rintro ⟨hacc, h2⟩
      have hdz : digitVal c = 0 := (digitVal_eq_zero_iff hc).mpr (h2 c (List.mem_cons_self c cs))
      exact ⟨by omega, fun x hx => h2 x (List.mem_cons_of_mem c hx)⟩

theorem digitsToNat_eq_zero {ds : List Char} (h : ∀ c ∈ ds, c.isDigit = true) :
    digitsToNat ds = 0 ↔ ∀ c ∈ ds, c = '0' := by
  unfold digitsToNat
  rw [foldl_digits_eq_zero ds 0 h]
  simp

theorem takeWhile_all_append (p : Char → Bool) (l1 l2 : List Char)
    (h : ∀ x ∈ l1, p x = true) :
    (l1 ++ l2).takeWhile p = l1 ++ l2.takeWhile p := by
  induction l1 with
  | nil => simp
  | cons a tl ih =>
    have ha : p a = true := h a (List.mem_cons_self a tl)
    simp only [List.cons_append, List.takeWhile_cons, ha, if_true]
    rw [ih (fun x hx => h x (List.mem_cons_of_mem a hx))]

theorem dropWhile_all_append (p : Char → Bool) (l1 l2 : List Char)
    (h : ∀ x ∈ l1, p x = true) :
    (l1 ++ l2).dropWhile p = l2.dropWhile p := by
  induction l1 with
  | nil => simp
  | cons a tl ih =>
    have ha : p a = true := h a (List.mem_cons_self a tl)
    simp only [List.cons_append, List.dropWhile_cons, ha, if_true]
    exact ih (fun x hx => h x (List.mem_cons_of_mem a hx))

/-- Structure of any token produced by the matcher: a nonempty digit run,
optionally followed by a dot and a (possibly empty) digit run. -/
theorem firstNumberToken_shape : ∀ (cs t : List Char), firstNumberToken cs = some t →
    ∃ ip frac, ip ≠ [] ∧ (∀ x ∈ ip, x.isDigit = true) ∧ (∀ x ∈ frac, x.isDigit = true) ∧
      (t = ip ++ '.' :: frac ∨ (t = ip ∧ frac = [])) := by
  intro cs
  induction cs with
  | nil => intro t h; simp [firstNumberToken] at h
  | cons c cs ih =>
    intro t h
    by_cases hc : c.isDigit = true
    · rw [firstNumberToken, if_pos hc] at h
      have ht : numberToken (c :: cs) = t := Option.some.inj h
      have hip : (c :: cs).takeWhile Char.isDigit = c :: cs.takeWhile Char.isDigit := by
        simp [List.takeWhile_cons, hc]
      have hipd : ∀ x ∈ (c :: cs).takeWhile Char.isDigit, x.isDigit = true :=
        fun x hx => List.mem_takeWhile_imp hx
      rcases hrest : (c :: cs).dropWhile Char.isDigit with _ | ⟨d, r2⟩
      · refine ⟨(c :: cs).takeWhile Char.isDigit, [], by simp [hip], hipd, by simp, Or.inr ⟨?_, rfl⟩⟩
        rw [← ht]
        unfold numberToken
        rw [hrest]
      · by_cases hd : d = '.'
        · refine ⟨(c :: cs).takeWhile Char.isDigit, r2.takeWhile Char.isDigit,
            by simp [hip], hipd, fun x hx => List.mem_takeWhile_imp hx, Or.inl ?_⟩
          rw [← ht]
          unfold numberToken
          rw [hrest]
          simp [hd]
        · refine ⟨(c :: cs).takeWhile Char.isDigit, [], by simp [hip], hipd, by simp, Or.inr ⟨?_, rfl⟩⟩
          rw [← ht]
          unfold numberToken
          rw [hrest]
          simp [hd]
    · rw [firstNumberToken, if_neg hc] at h
      exact ih t h

/-- The value of a matcher token is zero exactly when all its digits are
the digit zero. -/
theorem tokenValue_eq_zero {t : List Char}
    (hsh : ∃ ip frac, ip ≠ [] ∧ (∀ x ∈ ip, x.isDigit = true) ∧ (∀ x ∈ frac, x.isDigit = true) ∧
      (t = ip ++ '.' :: frac ∨ (t = ip ∧ frac = []))) :
    tokenValue t = 0 ↔ ∀ c ∈ t, c = '0' ∨ c = '.' := by
  obtain ⟨ip, frac, hne, hipd, hfracd, hcase⟩ := hsh
  rcases hcase with rfl | ⟨h1, rfl⟩
  · have htake : (ip ++ '.' :: frac).takeWhile Char.isDigit = ip := by
      rw [takeWhile_all_append _ _ _ hipd]
      simp [List.takeWhile_cons]
    have hdrop : (ip ++ '.' :: frac).dropWhile Char.isDigit = '.' :: frac := by
      rw [dropWhile_all_append _ _ _ hipd]
      simp [List.dropWhile_cons]
    unfold tokenValue
    rw [htake, hdrop]
    simp only [eq_self_iff_true, if_true]
    rw [Rat.mkRat_eq_zero (pow_ne_zero _ (by norm_num))]
    rw [Int.natCast_eq_zero]
    rw [digitsToNat_eq_zero (by
      intro x hx
      rcases List.mem_append.mp hx with hx | hx
      · exact hipd x hx
      · exact hfracd x hx)]
    constructor
    · intro hz x hx
      rcases List.mem_append.mp hx with hx | hx
      · exact Or.inl (hz x (List.mem_append.mpr (Or.inl hx)))
      · rcases List.mem_cons.mp hx with rfl | hx2
        · exact Or.inr rfl
        · exact Or.inl (hz x (List.mem_append.mpr (Or.inr hx2)))
    · intro hz x hx
      have hxd : x.isDigit = true := by
        rcases List.mem_append.mp hx with hx | hx
        · exact hipd x hx
        · exact hfracd x hx
      have hmem : x ∈ ip ++ '.' :: frac := by
        rcases List.mem_append.mp hx with hx | hx
        · exact List.mem_append.mpr (Or.inl hx)
        · exact List.mem_append.mpr (Or.inr (List.mem_cons_of_mem _ hx))
      rcases hz x hmem with h0 | hdot
      · exact h0
      · subst hdot
        simp at hxd
  · have htake : List.takeWhile Char.isDigit ip = ip := List.takeWhile_eq_self_iff.mpr hipd
    have hdrop : List.dropWhile Char.isDigit ip = [] := List.dropWhile_eq_nil_iff.mpr hipd
    rw [h1]
    unfold tokenValue
    rw [htake, hdrop]
    rw [Nat.cast_eq_zero]
    rw [digitsToNat_eq_zero hipd]
    constructor
    · intro hz x hx
      exact Or.inl (hz x hx)
    · intro hz x hx
      rcases hz x hx with h0 | hdot
      · exact h0
      · subst hdot
        have hxd := hipd _ hx
        simp at hxd

/-- The `_send_to_all` loop catches per channel: the call always returns
normally with one outcome per channel, each a function of that channel
alone. -/
theorem send_to_all_eq_map (level : Nat)
    (chans : List (WebhookNotifier × SendOutcome)) :
    send_to_all level chans = .ok (chans.map (fun p => handleOne p.1 level p.2)) := by
  induction chans with
  | nil => rfl
  | cons p rest ih =>
    cases p with
    | mk n o =>
      simp only [send_to_all, List.map_cons, ih, Except.map]

/-! ## Claim theorems -/

/-- C6 counterexample: on the text `"0"` the parser finds a parsable number
yet returns `0.0`, so "returns `0.0` exactly when no parsable number
occurs" fails as stated. -/
theorem extract_balance_zero_counterexample :
    extract_balance_number "0" = 0 ∧ firstNumberToken (String.data "0") ≠ none := by
  constructor
  · decide
  · decide

/-- C6 (amended): `extract_balance_number` is total (never raises) and
returns `0.0` exactly when the text contains no run of digits, or the first
matched number consists only of zero digits (and possibly a decimal
point). -/
theorem extract_balance_zero_iff (s : String) :
    extract_balance_number s = 0 ↔
      (firstNumberToken s.data = none ∨
       ∃ t, firstNumberToken s.data = some t ∧ ∀ c ∈ t, c = '0' ∨ c = '.') := by
  unfold extract_balance_number
  cases h : firstNumberToken s.data with
  | none => simp
  | some t =>
    rw [tokenValue_eq_zero (firstNumberToken_shape s.data t h)]
    constructor
    · intro hz
      exact Or.inr ⟨t, rfl, hz⟩
    · rintro (hn | ⟨t2, ht2, hz⟩)
      · exact absurd hn (by simp)
      · obtain rfl : t2 = t := (Option.some.inj ht2).symm
        exact hz

/-- C6 witness: the amended equivalence evaluated on the text `"0"`. -/
theorem extract_balance_zero_iff_witness :
    extract_balance_number "0" = 0 ↔
      (firstNumberToken (String.data "0") = none ∨
       ∃ t, firstNumberToken (String.data "0") = some t ∧ ∀ c ∈ t, c = '0' ∨ c = '.') :=
  extract_balance_zero_iff "0"

/-- C5 counterexample: a channel whose webhook URL is empty receives no
delivery attempt even though the event severity meets its floor, so "the
delivery attempt proceeds iff severity is at least the floor" fails as
stated. -/
theorem send_notification_severity_counterexample :
    (send_notification ⟨"", INFO⟩ SUCCESS true).attempted = false ∧ INFO ≤ SUCCESS := by
  constructor
  · rfl
  · decide

/-- C5 (amended): a delivery attempt to a channel implies the event
severity is at least the channel floor; and for a channel with a non-empty
webhook URL the attempt proceeds iff the severity is at least the floor
(below-floor events return `False` without sending). -/
theorem send_notification_severity_gate (n : WebhookNotifier) (level : Nat) (postOk : Bool) :
    ((send_notification n level postOk).attempted = true → n.min_level ≤ level) ∧
    (n.webhook_url ≠ "" →
      ((send_notification n level postOk).attempted = true ↔ n.min_level ≤ level)) := by
  unfold send_notification
  by_cases hu : n.webhook_url = ""
  · rw [if_pos hu]
    exact ⟨fun h => by simp at h, fun h => absurd hu h⟩
  · rw [if_neg hu]
    by_cases hl : level < n.min_level
    · rw [if_pos hl]
      refine ⟨fun h => by simp at h, fun _ => ⟨fun h => by simp at h, fun h => by omega⟩⟩
    · rw [if_neg hl]
      exact ⟨fun _ => by omega, fun _ => ⟨fun _ => by omega, fun _ => rfl⟩⟩

/-- C5 witness: a configured channel with floor INFO receives the attempt
for a SUCCESS severity event. -/
theorem send_notification_severity_gate_witness :
    (send_notification ⟨"https://example", INFO⟩ SUCCESS true).attempted = true :=
  ((send_notification_severity_gate ⟨"https://example", INFO⟩ SUCCESS true).2
    (by decide)).mpr (by decide)

/-- C9: routing an event to the channel list never raises: the result is
always `ok`, with exactly one per-channel outcome, each depending only on
that channel (a raise in one channel is caught and cannot suppress the
attempts on the others). -/
theorem send_to_all_never_raises (level : Nat)
    (chans : List (WebhookNotifier × SendOutcome)) :
    send_to_all level chans = .ok (chans.map (fun p => handleOne p.1 level p.2)) ∧
    ∃ l, send_to_all level chans = .ok l ∧ l.length = chans.length := by
  have h := send_to_all_eq_map level chans
  exact ⟨h, _, h, by simp⟩

/-- C9 witness: a raising first channel is caught and the second channel
still gets its attempt. -/
theorem send_to_all_never_raises_witness :
    send_to_all ERROR [(⟨"u", INFO⟩, .raises "boom"), (⟨"u", INFO⟩, .returns true)]
      = .ok [false, true] := by
  have h := (send_to_all_never_raises ERROR
    [(⟨"u", INFO⟩, .raises "boom"), (⟨"u", INFO⟩, .returns true)]).1
  simpa [handleOne, rawSend, send_notification] using h

/-- C3: the quiet-hours eligibility check: with both configured times
parsed, a same-day window (start at most end) admits exactly the literal
interval, a wrapped window (start after end) admits exactly the union of
the two sides of midnight; a malformed configured time makes the check
fail open (always `True`); and `23:00`-`06:00` admits `23:30` and `05:00`
but not `12:00`. -/
theorem notification_time_window_spec :
    (∀ (startS endS : String) (st en now : Nat),
        parseTime startS = some st → parseTime endS = some en →
        ((st ≤ en →
            (isWithinNotificationTime startS endS now = true ↔ st ≤ now ∧ now ≤ en)) ∧
         (en < st →
            (isWithinNotificationTime startS endS now = true ↔ st ≤ now ∨ now ≤ en)))) ∧
    (∀ (startS endS : String) (now : Nat),
        parseTime startS = none ∨ parseTime endS = none →
        isWithinNotificationTime startS endS now = true) ∧
    isWithinNotificationTime "23:00" "06:00" (23 * 3600 + 30 * 60) = true ∧
    isWithinNotificationTime "23:00" "06:00" (5 * 3600) = true ∧
    isWithinNotificationTime "23:00" "06:00" (12 * 3600) = false := by
  refine ⟨?_, ?_, by decide, by decide, by decide⟩
  · intro startS endS st en now hs he
    have hw : isWithinNotificationTime startS endS now =
        if st ≤ en then (decide (st ≤ now) && decide (now ≤ en))
        else (decide (now ≥ st) || decide (now ≤ en)) := by
      unfold isWithinNotificationTime
      rw [hs, he]
    constructor
    · intro hle
      rw [hw, if_pos hle]
      simp
    · intro hlt
      rw [hw, if_neg (by omega)]
      simp [ge_iff_le]
  · intro startS endS now h
    unfold isWithinNotificationTime
    rcases hx : parseTime startS with _ | v
    · rfl
    · rcases hy : parseTime endS with _ | w
      · rfl
      · rcases h with h | h
        · rw [hx] at h
          exact absurd h (by simp)
        · rw [hy] at h
          exact absurd h (by simp)

/-- C3 witness: a malformed start time makes the check fail open. -/
theorem notification_time_window_witness :
    isWithinNotificationTime "notaclock" "06:00" 0 = true :=
  notification_time_window_spec.2.1 "notaclock" "06:00" 0 (Or.inl rfl)

/-- C4: the balance-success event is suppressed entirely (reaches no
channel) when the balance is at least the threshold, and otherwise remains
eligible, gated only by the quiet-hours window and the per-channel
severity floor; with threshold `100.0`, balance `99.99` is delivered (in
window, floor INFO) and balance `100.0` is suppressed for every window and
channel list. -/
theorem balance_threshold_suppression :
    (∀ (b t : ℚ) (startS endS : String) (now : Nat)
        (chans : List (WebhookNotifier × SendOutcome)),
        (t ≤ b → send_balance_notification b t startS endS now chans = none) ∧
        (b < t → send_balance_notification b t startS endS now chans =
          if isWithinNotificationTime startS endS now then some (send_to_all SUCCESS chans)
          else none)) ∧
    send_balance_notification (mkRat 9999 100) 100 "06:00" "23:00" (12 * 3600)
      [(⟨"url", INFO⟩, .returns true)] = some (.ok [true]) ∧
    (∀ (startS endS : String) (now : Nat)
        (chans : List (WebhookNotifier × SendOutcome)),
        send_balance_notification 100 100 startS endS now chans = none) := by
  refine ⟨?_, ?_, ?_⟩
  · intro b t startS endS now chans
    unfold send_balance_notification
    constructor
    · intro hbt
      by_cases hw : isWithinNotificationTime startS endS now = false
      · rw [if_pos hw]
      · rw [if_neg hw, if_pos hbt]
    · intro hbt
      by_cases hw : isWithinNotificationTime startS endS now = false
      · rw [if_pos hw, hw]
        simp
      · rw [if_neg hw, if_neg (not_le.mpr hbt)]
        rw [Bool.not_eq_false] at hw
        rw [hw]
        simp
  · decide
  · intro startS endS now chans
    unfold send_balance_notification
    by_cases hw : isWithinNotificationTime startS endS now = false
    · rw [if_pos hw]
    · rw [if_neg hw, if_pos (le_refl (100 : ℚ))]

/-- C4 witness: at balance equal to the threshold, the notification is
suppressed. -/
theorem balance_threshold_suppression_witness :
    send_balance_notification 100 100 "06:00" "23:00" (12 * 3600) [] = none :=
  (balance_threshold_suppression.1 100 100 "06:00" "23:00" (12 * 3600) []).1
    (le_refl (100 : ℚ))

/-- C1: classification of a crawl run without unexpected fault: a failed
login yields status `error` with message `登入失敗` and zero records; after
a successful login the status is `success` iff the extracted balance is
positive, a database is configured and the insert reports success (and then
exactly one record is counted), and `partial` iff the balance is positive
but the insert fails, or the balance is not positive, or no database is
configured. -/
theorem run_crawl_task_classification (loginSuccess hasDb insertOk : Bool)
    (balanceText : String) (t0 t1 : ℚ) :
    (loginSuccess = false →
      (run_crawl_task none loginSuccess balanceText hasDb insertOk t0 t1).status = "error" ∧
      (run_crawl_task none loginSuccess balanceText hasDb insertOk t0 t1).error_message
        = some "登入失敗" ∧
      (run_crawl_task none loginSuccess balanceText hasDb insertOk t0 t1).records_count = 0) ∧
    (loginSuccess = true →
      (((run_crawl_task none loginSuccess balanceText hasDb insertOk t0 t1).status = "success"
          ↔ 0 < extract_balance_number balanceText ∧ hasDb = true ∧ insertOk = true) ∧
       ((run_crawl_task none loginSuccess balanceText hasDb insertOk t0 t1).status = "success"
          → (run_crawl_task none loginSuccess balanceText hasDb insertOk t0 t1).records_count
              = 1) ∧
       ((run_crawl_task none loginSuccess balanceText hasDb insertOk t0 t1).status = "partial"
          ↔ (0 < extract_balance_number balanceText ∧ hasDb = true ∧ insertOk = false) ∨
            extract_balance_number balanceText ≤ 0 ∨ hasDb = false))) := by
  cases loginSuccess with
  | false =>
    refine ⟨fun _ => ⟨rfl, rfl, rfl⟩, fun h => nomatch h⟩
  | true =>
    refine ⟨(fun h => nomatch h), fun _ => ?_⟩
    simp only [run_crawl_task]
    by_cases hb : 0 < extract_balance_number balanceText ∧ hasDb = true
    · cases insertOk with
      | true =>
        rw [if_neg (by simp), if_pos hb, if_pos rfl]
        refine ⟨⟨fun _ => ⟨hb.1, hb.2, rfl⟩, fun _ => rfl⟩, fun _ => rfl, ?_⟩
        constructor
        · intro h
          exact absurd h (by simp)
        · rintro (⟨_, _, h⟩ | h | h)
          · exact nomatch h
          · exact absurd hb.1 (not_lt.mpr h)
          · rw [hb.2] at h
            exact nomatch h
      | false =>
        rw [if_neg (by simp), if_pos hb, if_neg (by simp)]
        refine ⟨⟨fun h => absurd h (by simp), fun h => absurd h.2.2 (by simp)⟩,
          fun h => absurd h (by simp), ?_⟩
        exact ⟨fun _ => Or.inl ⟨hb.1, hb.2, rfl⟩, fun _ => rfl⟩
    · rw [if_neg (by simp), if_neg hb]
      have hrhs : extract_balance_number balanceText ≤ 0 ∨ hasDb = false := by
        rcases not_and_or.mp hb with h | h
        · exact Or.inl (not_lt.mp h)
        · exact Or.inr (by revert h; cases hasDb <;> simp)
      refine ⟨⟨fun h => absurd h (by simp), fun h => absurd ⟨h.1, h.2.1⟩ hb⟩,
        fun h => absurd h (by simp), fun _ => Or.inr hrhs, fun _ => rfl⟩


/-- C1 witness: a failed login produces status `error`. -/
theorem run_crawl_task_classification_witness :
    (run_crawl_task none false "x" true true 0 1).status = "error" :=
  ((run_crawl_task_classification false true true "x" 0 1).1 rfl).1

/-- C8: on every outcome of the crawl task, with the unexpected-fault path
and the login-failure early return included, the result always carries
`duration_seconds` equal to the wall clock span from task start to finish,
which is nonnegative. -/
theorem run_crawl_task_duration (fault : Option String) (loginSuccess : Bool)
    (balanceText : String) (hasDb insertOk : Bool) (t0 t1 : ℚ) (h : t0 ≤ t1) :
    (run_crawl_task fault loginSuccess balanceText hasDb insertOk t0 t1).duration_seconds
      = t1 - t0 ∧
    0 ≤ (run_crawl_task fault loginSuccess balanceText hasDb insertOk t0 t1).duration_seconds := by
  have hd : (run_crawl_task fault loginSuccess balanceText hasDb insertOk t0 t1).duration_seconds
      = t1 - t0 := by
    cases fault with
    | some m => rfl
    | none =>
      simp only [run_crawl_task]
      by_cases h1 : loginSuccess = false
      · rw [if_pos h1]
      · rw [if_neg h1]
        by_cases h2 : 0 < extract_balance_number balanceText ∧ hasDb = true
        · rw [if_pos h2]
          cases insertOk with
          | true => rfl
          | false => rfl
        · rw [if_neg h2]
  exact ⟨hd, hd ▸ sub_nonneg.mpr h⟩

/-- C8 witness: the unexpected-fault path at equal start and finish times. -/
theorem run_crawl_task_duration_witness :
    (run_crawl_task (some "boom") false "x" false false 0 0).duration_seconds = 0 - 0 ∧
    0 ≤ (run_crawl_task (some "boom") false "x" false false 0 0).duration_seconds :=
  run_crawl_task_duration (some "boom") false "x" false false 0 0 (le_refl 0)

/-- The hourly series has one entry per consecutive pair of readings. -/
theorem hourlyUsage_length (l : List ElectricityRecord) :
    (hourlyUsage l).length = l.length - 1 := by
  induction l with
  | nil => rfl
  | cons a tl ih =>
    cases tl with
    | nil => rfl
    | cons b rest =>
      show (hourlyUsage (a :: b :: rest)).length = (a :: b :: rest).length - 1
      simp only [hourlyUsage, List.length_cons] at ih ⊢
      omega

/-- Entry `i` of the hourly series is determined by readings `i` and
`i + 1`. -/
theorem hourlyUsage_getElem? (l : List ElectricityRecord) (i : Nat)
    (a b : ElectricityRecord) (ha : l[i]? = some a) (hb : l[i + 1]? = some b) :
    (hourlyUsage l)[i]? =
      some ⟨fmtTime b.created_at, pymax 0 (a.balance - b.balance), b.balance⟩ := by
  induction l generalizing i a b with
  | nil => simp at ha
  | cons c tl ih =>
    cases tl with
    | nil =>
      rcases i with _ | j <;> simp at hb
    | cons d rest =>
      cases i with
      | zero =>
        simp only [List.getElem?_cons_zero, List.getElem?_cons_succ,
          Option.some.injEq] at ha hb
        subst ha
        subst hb
        simp only [hourlyUsage, List.getElem?_cons_zero]
      | succ j =>
        simp only [List.getElem?_cons_succ] at ha hb
        have hb2 : (d :: rest)[j + 1]? = some b := by simpa using hb
        have ihj := ih j a b ha hb2
        show (hourlyUsage (c :: d :: rest))[j + 1]? = _
        simp only [hourlyUsage, List.getElem?_cons_succ]
        exact ihj

/-- C2: for at least two readings, the daily summary starts at the first
balance, ends at the last, clamps the total at zero, and the hourly series
has one entry per consecutive pair with usage the clamped delta and balance
that of the later reading; on balances 500, 480, 520, 460 the total is 40
and no hourly usage entry is negative. -/
theorem daily_summary_spec :
    (∀ (d : Option String) (recs : List ElectricityRecord) (r0 rl : ElectricityRecord),
      2 ≤ recs.length → recs.head? = some r0 → recs.getLast? = some rl →
      (get_daily_usage_summary d recs).start_balance = some r0.balance ∧
      (get_daily_usage_summary d recs).end_balance = some rl.balance ∧
      (get_daily_usage_summary d recs).total_usage = max 0 (r0.balance - rl.balance) ∧
      (get_daily_usage_summary d recs).hourly_usage.length = recs.length - 1 ∧
      (∀ (i : Nat) (a b : ElectricityRecord), recs[i]? = some a → recs[i + 1]? = some b →
        (get_daily_usage_summary d recs).hourly_usage[i]? =
          some ⟨fmtTime b.created_at, max 0 (a.balance - b.balance), b.balance⟩)) ∧
    (get_daily_usage_summary none demoRecords).total_usage = 40 ∧
    (get_daily_usage_summary none demoRecords).hourly_usage.map (fun e => e.usage)
      = [20, 0, 60] ∧
    (∀ e ∈ (get_daily_usage_summary none demoRecords).hourly_usage, 0 ≤ e.usage) := by
  have hmap : (get_daily_usage_summary none demoRecords).hourly_usage.map
      (fun e => e.usage) = [20, 0, 60] := by
    norm_num [get_daily_usage_summary, demoRecords, hourlyUsage, pymax]
  refine ⟨?_, ?_, hmap, ?_⟩
  · intro d recs r0 rl h2 hh hl
    obtain ⟨tl, rfl⟩ : ∃ tl, recs = r0 :: tl := by
      cases recs with
      | nil => exact absurd hh (by simp)
      | cons c tl =>
        have hc : c = r0 := by simpa using hh
        exact ⟨tl, by rw [hc]⟩
    cases tl with
    | nil => exact absurd h2 (by simp)
    | cons b rest =>
      have hrepr : get_daily_usage_summary d (r0 :: b :: rest) =
          ⟨d, pymax 0 (r0.balance - (((r0 :: b :: rest).getLast?).getD r0).balance),
            some r0.balance, some (((r0 :: b :: rest).getLast?).getD r0).balance,
            hourlyUsage (r0 :: b :: rest)⟩ := by
        unfold get_daily_usage_summary
        rw [if_neg (by simp only [List.length_cons]; omega)]
      rw [hrepr]
      rw [hl]
      simp only [Option.getD_some]
      refine ⟨trivial, trivial, pymax_eq_max 0 (r0.balance - rl.balance),
        hourlyUsage_length _, ?_⟩
      intro i a b2 ha hb
      rw [← pymax_eq_max]
      exact hourlyUsage_getElem? _ i a b2 ha hb
  · norm_num [get_daily_usage_summary, demoRecords, pymax]
  · intro e he
    have hmem : e.usage ∈ [(20 : ℚ), 0, 60] := by
      rw [← hmap]
      exact List.mem_map_of_mem _ he
    simp only [List.mem_cons, List.not_mem_nil, or_false] at hmem
    rcases hmem with h | h | h <;> rw [h] <;> norm_num

/-- C2 witness: the first reading of the clamping example gives the start
balance. -/
theorem daily_summary_spec_witness :
    (get_daily_usage_summary none demoRecords).start_balance = some (500 : ℚ) :=
  (daily_summary_spec.1 none demoRecords ⟨500, some (0, 0)⟩ ⟨460, some (3, 0)⟩
    (by decide) rfl rfl).1

/-- C7: with fewer than two readings the summary is the well-defined zero
summary: zero total, absent start and end balances, empty hourly series. -/
theorem daily_summary_insufficient_data (d : Option String)
    (recs : List ElectricityRecord) (h : recs.length < 2) :
    get_daily_usage_summary d recs = ⟨d, 0, none, none, []⟩ := by
  unfold get_daily_usage_summary
  rw [if_pos h]

/-- C7 witness: a single reading gives the zero summary. -/
theorem daily_summary_insufficient_data_witness :
    get_daily_usage_summary (some "2025-01-15") [⟨500, none⟩]
      = ⟨some "2025-01-15", 0, none, none, []⟩ :=
  daily_summary_insufficient_data (some "2025-01-15") [⟨500, none⟩] (by decide)

/-- C10: on the clamping example 500, 480, 520, 460 the hourly usages are
20, 0, 60 with sum 80, strictly above the total usage 40: per-delta
clamping and whole-day clamping are applied independently. -/
theorem hourly_sum_exceeds_total :
    ((get_daily_usage_summary none demoRecords).hourly_usage.map (fun e => e.usage)).sum
      = 80 ∧
    (get_daily_usage_summary none demoRecords).total_usage = 40 ∧
    (get_daily_usage_summary none demoRecords).total_usage
      < ((get_daily_usage_summary none demoRecords).hourly_usage.map
          (fun e => e.usage)).sum := by
  have hmap : (get_daily_usage_summary none demoRecords).hourly_usage.map
      (fun e => e.usage) = [20, 0, 60] := by
    norm_num [get_daily_usage_summary, demoRecords, hourlyUsage, pymax]
  have htot : (get_daily_usage_summary none demoRecords).total_usage = 40 := by
    norm_num [get_daily_usage_summary, demoRecords, pymax]
  have hsum : ((get_daily_usage_summary none demoRecords).hourly_usage.map
      (fun e => e.usage)).sum = 80 := by
    rw [hmap]
    norm_num
  exact ⟨hsum, htot, by rw [hsum, htot]; norm_num⟩

end NtutBot
